import Mathlib

/-!
Shallow embedding of the schedule-dashboard logic of src/app.py and src/app2.py
(SDGKU_Dashboard): date parsing, unit normalization, teacher-assignment
parsing and merging, event derivation, table pivoting, and the append-only
schedule store.  Python strings are modelled as Lean `String`s (ASCII
semantics for case folding, whitespace and word characters), Python `None` /
pandas `NaN` inputs as `Option.none`, and Python exceptions caught by the
source as `Option.none` results.
-/

/-- Whitespace characters recognised by Python's `str.strip` / `\s`
(ASCII fragment). -/
def pyIsSpace (c : Char) : Bool :=
  c == ' ' || c == '\t' || c == '\n' || c == '\r' || c == '\x0b' || c == '\x0c'

/-- Strip whitespace from both ends of a character list (Python `str.strip`). -/
def pyStripL (l : List Char) : List Char :=
  ((l.dropWhile pyIsSpace).reverse.dropWhile pyIsSpace).reverse

/-- Python `str.strip()`. -/
def pyStrip (s : String) : String :=
  String.mk (pyStripL s.toList)

/-- Python `str.split(c)` on a character list: splits at every occurrence of
`c`, keeping empty segments (`"".split(c) == [""]`). -/
def splitOnCharL (c : Char) : List Char → List (List Char)
  | [] => [[]]
  | x :: xs =>
    if x == c then [] :: splitOnCharL c xs
    else
      match splitOnCharL c xs with
      | [] => [[x]]
      | h :: t => (x :: h) :: t

/-- Python `s.split(c)` for a single-character separator. -/
def pySplit (s : String) (c : Char) : List String :=
  (splitOnCharL c s.toList).map String.mk

/-- Python `str.split()` (no argument): split on runs of whitespace,
dropping empty tokens. -/
def pySplitWsAux : List Char → List Char → List (List Char)
  | acc, [] => if acc.isEmpty then [] else [acc.reverse]
  | acc, c :: cs =>
    if pyIsSpace c then
      if acc.isEmpty then pySplitWsAux [] cs
      else acc.reverse :: pySplitWsAux [] cs
    else pySplitWsAux (c :: acc) cs

/-- Python `str.split()` (whitespace runs, empties dropped). -/
def pySplitWs (s : String) : List String :=
  (pySplitWsAux [] s.toList).map String.mk

/-- Python `str.lower()` (ASCII). -/
def pyLower (s : String) : String := String.mk (s.toList.map Char.toLower)

/-- Python `str.upper()` (ASCII). -/
def pyUpper (s : String) : String := String.mk (s.toList.map Char.toUpper)

/-- Numeric value of a digit string (most significant first). -/
def digitsVal (l : List Char) : Nat :=
  l.foldl (fun a c => a * 10 + (c.toNat - 48)) 0

/-- A proleptic-Gregorian calendar date as produced by Python
`datetime.date`. -/
structure PyDate where
  year : Nat
  month : Nat
  day : Nat
deriving DecidableEq, Repr

/-- Gregorian leap-year rule (Python `calendar.isleap`). -/
def isLeap (y : Nat) : Bool :=
  y % 4 == 0 && (y % 100 != 0 || y % 400 == 0)

/-- Number of days in a month, as validated by `datetime.date`. -/
def daysInMonth (y m : Nat) : Nat :=
  if m == 2 then (if isLeap y then 29 else 28)
  else if m == 4 || m == 6 || m == 9 || m == 11 then 30
  else 31

/-- Python `datetime.date(y, m, d)`: validates ranges (year 1..9999, month 1..12,
day 1..days-in-month) and raises `ValueError` (here: `none`) otherwise. -/
def mkDate (y m d : Nat) : Option PyDate :=
  if 1 ≤ y ∧ y ≤ 9999 ∧ 1 ≤ m ∧ m ≤ 12 ∧ 1 ≤ d ∧ d ≤ daysInMonth y m then
    some ⟨y, m, d⟩
  else none

/-- Month token accepted by `strptime`'s `%m` (regex `1[0-2]|0[1-9]|[1-9]`):
one or two digits with value 1..12. `%d` is the analogue with bound 31. -/
def tokUpTo (l : List Char) (hi : Nat) : Bool :=
  (l.length == 1 || l.length == 2) && l.all Char.isDigit
    && decide (1 ≤ digitsVal l) && decide (digitsVal l ≤ hi)

/-- Python `datetime.strptime(s, "%m/%d/%Y")` projected to its date: a full match of
month, day and a four-digit year separated by `/`, then `datetime`
validation.  Since `%m`/`%d` never match `/`, a full match is exactly a
three-way split on `/`. -/
def strptimeMDY4 (s : String) : Option PyDate :=
  match pySplit s '/' with
  | [mt, dt, yt] =>
    if tokUpTo mt.toList 12 && tokUpTo dt.toList 31
        && yt.toList.all Char.isDigit && yt.length == 4 then
      mkDate (digitsVal yt.toList) (digitsVal mt.toList) (digitsVal dt.toList)
    else none
  | _ => none

/-- Python `datetime.strptime(s, "%m/%d/%y")`: exactly two year digits, mapped to
2000..2068 / 1969..1999 per Python's century rule. -/
def strptimeMDY2 (s : String) : Option PyDate :=
  match pySplit s '/' with
  | [mt, dt, yt] =>
    if tokUpTo mt.toList 12 && tokUpTo dt.toList 31
        && yt.toList.all Char.isDigit && yt.length == 2 then
      let y2 := digitsVal yt.toList
      mkDate (if y2 ≤ 68 then 2000 + y2 else 1900 + y2)
        (digitsVal mt.toList) (digitsVal dt.toList)
    else none
  | _ => none

/-- Last element of a `split(',')` (Python `s.split(',')[-1]`; the split is
never empty). -/
def lastCommaPart (s : String) : String :=
  (pySplit s ',').getLastD ""

/-- src/app2.py `parse_date_from_string`: `None`/non-string gives `None`;
otherwise the substring after the last comma is stripped and tried as
`%m/%d/%y` first, then `%m/%d/%Y`; any failure gives `None`. -/
def parse_date_from_string : Option String → Option PyDate
  | none => none
  | some s =>
    let part := pyStrip (lastCommaPart s)
    match strptimeMDY2 part with
    | some d => some d
    | none => strptimeMDY4 part

/-- src/app.py `parse_master_schedule_date_string`: `None`/blank gives
`None`; otherwise the whole stripped string (no comma handling) is tried as
`%m/%d/%Y` first, then `%m/%d/%y`. -/
def parse_master_schedule_date_string : Option String → Option PyDate
  | none => none
  | some s =>
    let c := pyStrip s
    if c = "" then none
    else
      match strptimeMDY4 c with
      | some d => some d
      | none => strptimeMDY2 c

example : parse_date_from_string (some "Saturday (9 am - 12 pm), 03/14/25")
    = some ⟨2025, 3, 14⟩ := by decide
example : parse_date_from_string (some "03/14/2025") = some ⟨2025, 3, 14⟩ := by decide
example : parse_master_schedule_date_string (some "Saturday (9 am - 12 pm), 03/14/25")
    = none := by decide
example : parse_master_schedule_date_string (some "03/14/2025") = some ⟨2025, 3, 14⟩ := by
  decide
example : parse_master_schedule_date_string (some "03/14/25") = some ⟨2025, 3, 14⟩ := by
  decide
example : parse_date_from_string (some "not a date") = none := by decide
example : parse_date_from_string (some "") = none := by decide
example : parse_master_schedule_date_string (some "02/29/2024") = some ⟨2024, 2, 29⟩ := by
  decide
example : parse_master_schedule_date_string (some "02/29/2025") = none := by decide

/-- Word character for regex `\b` boundaries (`[A-Za-z0-9_]`, ASCII
fragment of Python's `\w`). -/
def isWordChar (c : Char) : Bool := c.isAlphanum || c == '_'

/-- The `re.search(r'\b(\d{3})\b', ...)` engine: scan positions left to right,
at each position require three digits with a word boundary on each side;
`prev` is the character just before the current position. -/
def find3DigitAux : Option Char → List Char → Option (List Char)
  | _, [] => none
  | prev, c :: cs =>
    match cs with
    | c2 :: c3 :: rest =>
      if c.isDigit && c2.isDigit && c3.isDigit
          && (match prev with | none => true | some p => !isWordChar p)
          && (match rest with | [] => true | r :: _ => !isWordChar r) then
        some [c, c2, c3]
      else find3DigitAux (some c) cs
    | _ => none

/-- src/app.py and src/app2.py `get_actual_unit_from_cell` (the two copies
are behaviourally identical): `NaN` gives `None`; a cell that strips to
empty, `"orientation"` or `"nan"` (case-insensitively) gives `None`;
otherwise the first `\b\d{3}\b` token, falling back to the stripped text. -/
def get_actual_unit_from_cell : Option String → Option String
  | none => none
  | some s =>
    let t := pyStrip s
    if t = "" || pyLower t == "orientation" || pyLower t == "nan" then none
    else
      match find3DigitAux none t.toList with
      | some ds => some (String.mk ds)
      | none => some t

/-- Boundary-delimited three-digit token at index `i` of `l`, with the
virtual left context `prev` before index 0 (claim-side formulation of
`\b\d{3}\b` matching at `i`). -/
def b3At (prev : Option Char) (l : List Char) (i : Nat) : Bool :=
  decide (i + 3 ≤ l.length) && ((l.drop i).take 3).all Char.isDigit
    && (match i, prev with
        | 0, none => true
        | 0, some p => !isWordChar p
        | j + 1, _ => !isWordChar (l.getD j ' '))
    && (i + 3 == l.length || !isWordChar (l.getD (i + 3) ' '))

/-- Index of the leftmost boundary-delimited three-digit token. -/
def firstB3 (prev : Option Char) (l : List Char) : Option Nat :=
  (List.range l.length).find? (b3At prev l)

/-- The unit normalizer's teacher key as the claim states it: null exactly
for blank / `"nan"` / `"orientation"` cells (after trimming and case
folding), otherwise the first boundary-delimited 3-digit token, or the full
trimmed text when no such token exists. -/
def normalizeKeySpec (s : String) : Option String :=
  let t := pyStrip s
  if pyLower t = "" ∨ pyLower t = "nan" ∨ pyLower t = "orientation" then none
  else
    match firstB3 none t.toList with
    | some i => some (String.mk ((t.toList.drop i).take 3))
    | none => some t

lemma b3At_zero (prev : Option Char) (c c2 c3 : Char) (rest : List Char) :
    b3At prev (c :: c2 :: c3 :: rest) 0
      = (c.isDigit && c2.isDigit && c3.isDigit
          && (match prev with | none => true | some p => !isWordChar p)
          && (match rest with | [] => true | r :: _ => !isWordChar r)) := by
  cases prev <;> cases rest <;>
    simp [b3At, List.getD_cons_succ, List.getD_cons_zero, Bool.and_assoc]

lemma b3At_succ (prev : Option Char) (c : Char) (cs : List Char) (i : Nat) :
    b3At prev (c :: cs) (i + 1) = b3At (some c) cs i := by
  have hidx : i + 1 + 3 = (i + 3) + 1 := by omega
  have e1 : decide (i + 1 + 3 ≤ (c :: cs).length) = decide (i + 3 ≤ cs.length) := by
    rw [decide_eq_decide]; simp only [List.length_cons]; omega
  have e2 : ((i + 1 + 3 == (c :: cs).length) : Bool) = (i + 3 == cs.length) := by
    rw [Bool.eq_iff_iff]; simp only [beq_iff_eq, List.length_cons]; omega
  have e3 : (c :: cs).drop (i + 1) = cs.drop i := List.drop_succ_cons
  have e4 : (c :: cs).getD (i + 1 + 3) ' ' = cs.getD (i + 3) ' ' := by
    rw [hidx]; exact List.getD_cons_succ
  cases i with
  | zero =>
    simp only [b3At, e1, e2, e3, e4, List.getD_cons_zero]
  | succ j =>
    simp only [b3At, e1, e2, e3, e4, List.getD_cons_succ]

lemma find3DigitAux_cons3 (prev : Option Char) (c c2 c3 : Char) (rest : List Char) :
    find3DigitAux prev (c :: c2 :: c3 :: rest)
      = if c.isDigit && c2.isDigit && c3.isDigit
            && (match prev with | none => true | some p => !isWordChar p)
            && (match rest with | [] => true | r :: _ => !isWordChar r) then
          some [c, c2, c3]
        else find3DigitAux (some c) (c2 :: c3 :: rest) := rfl

lemma find3DigitAux_eq (l : List Char) : ∀ prev, find3DigitAux prev l
    = (firstB3 prev l).map (fun i => (l.drop i).take 3) := by
  induction l with
  | nil => intro prev; simp [find3DigitAux, firstB3]
  | cons c cs ih =>
    intro prev
    rcases cs with _ | ⟨c2, _ | ⟨c3, rest⟩⟩
    · have h0 : b3At prev [c] 0 = false := by simp [b3At]
      simp [find3DigitAux, firstB3, show List.range 1 = [0] from rfl, h0]
    · have h0 : b3At prev [c, c2] 0 = false := by simp [b3At]
      have h1 : b3At prev [c, c2] 1 = false := by simp [b3At]
      simp [find3DigitAux, firstB3, show List.range 2 = [0, 1] from rfl, h0, h1]
    · have hzero := b3At_zero prev c c2 c3 rest
      have hlen : (c :: c2 :: c3 :: rest).length = (c2 :: c3 :: rest).length + 1 := rfl
      cases hB : b3At prev (c :: c2 :: c3 :: rest) 0 with
      | true =>
        have hfirst : firstB3 prev (c :: c2 :: c3 :: rest) = some 0 := by
          unfold firstB3
          rw [hlen, List.range_succ_eq_map]
          exact List.find?_cons_of_pos _ hB
        rw [hzero] at hB
        rw [find3DigitAux_cons3, if_pos hB, hfirst]
        rfl
      | false =>
        have hshift : firstB3 prev (c :: c2 :: c3 :: rest)
            = (firstB3 (some c) (c2 :: c3 :: rest)).map Nat.succ := by
          have hfun : (b3At prev (c :: c2 :: c3 :: rest)) ∘ Nat.succ
              = b3At (some c) (c2 :: c3 :: rest) :=
            funext (fun i => b3At_succ prev c (c2 :: c3 :: rest) i)
          unfold firstB3
          rw [hlen, List.range_succ_eq_map,
            List.find?_cons_of_neg _ (by rw [hB]; exact Bool.false_ne_true),
            List.find?_map, hfun]
        rw [hzero] at hB
        rw [find3DigitAux_cons3, if_neg (by rw [hB]; exact Bool.false_ne_true),
          ih (some c), hshift]
        cases hfb : firstB3 (some c) (c2 :: c3 :: rest) with
        | none => rfl
        | some i => rfl

lemma pyLower_eq_empty (t : String) : pyLower t = "" ↔ t = "" := by
  cases t with
  | mk l =>
    show String.mk (l.map Char.toLower) = String.mk [] ↔ String.mk l = String.mk []
    constructor
    · intro h
      have h2 : l.map Char.toLower = [] := congrArg String.data h
      have h3 : l = [] := by
        cases l with
        | nil => rfl
        | cons a t => simp at h2
      rw [h3]
    · intro h
      have h2 : l = [] := congrArg String.data h
      rw [h2]
      rfl

example : get_actual_unit_from_cell (some "FSDI 101") = some "101" := by decide
example : get_actual_unit_from_cell (some "Orientation") = none := by decide
example : get_actual_unit_from_cell (some " nan ") = none := by decide
example : get_actual_unit_from_cell (some "Capstone") = some "Capstone" := by decide
example : get_actual_unit_from_cell (some "FSDI 1011") = some "FSDI 1011" := by decide
example : get_actual_unit_from_cell (some "a123b 456") = some "456" := by decide
example : normalizeKeySpec "FSDI 101" = some "101" := by decide

/-- C8: for every cell string, the unit normalizer yields a null teacher key
exactly when the trimmed, case-folded cell is empty, the literal `"nan"`, or
`"orientation"`; otherwise the key is the first boundary-delimited 3-digit
token in the cell text, or the full trimmed cell text when no such token
exists (source `get_actual_unit_from_cell` equals the claim-side
`normalizeKeySpec`). -/
theorem C8_unit_normalizer (s : String) :
    get_actual_unit_from_cell (some s) = normalizeKeySpec s := by
  simp only [get_actual_unit_from_cell, normalizeKeySpec]
  by_cases h : pyLower (pyStrip s) = "" ∨ pyLower (pyStrip s) = "nan"
      ∨ pyLower (pyStrip s) = "orientation"
  · have hc : (pyStrip s = "" || pyLower (pyStrip s) == "orientation"
        || pyLower (pyStrip s) == "nan") = true := by
      simp only [Bool.or_eq_true, beq_iff_eq, decide_eq_true_eq]
      rcases h with h | h | h
      · exact Or.inl (Or.inl ((pyLower_eq_empty _).mp h))
      · exact Or.inr h
      · exact Or.inl (Or.inr h)
    rw [if_pos hc, if_pos h]
  · have hc : ¬ ((pyStrip s = "" || pyLower (pyStrip s) == "orientation"
        || pyLower (pyStrip s) == "nan") = true) := by
      simp only [Bool.or_eq_true, beq_iff_eq, decide_eq_true_eq]
      intro hcontra
      rcases hcontra with (h1 | h1) | h1
      · exact h (Or.inl ((pyLower_eq_empty _).mpr h1))
      · exact h (Or.inr (Or.inr h1))
      · exact h (Or.inr (Or.inl h1))
    rw [if_neg hc, if_neg h, find3DigitAux_eq]
    cases hfb : firstB3 none (pyStrip s).toList with
    | none => rfl
    | some i => rfl

/-- Does `hay` start with `need` (helper for Python `str.startswith` and
substring containment)? -/
def startsWithL : List Char → List Char → Bool
  | [], _ => true
  | _ :: _, [] => false
  | n :: ns, h :: hs => n == h && startsWithL ns hs

/-- Python `need in hay` (substring containment). -/
def hasSubstr (need : List Char) : List Char → Bool
  | [] => startsWithL need []
  | h :: hs => startsWithL need (h :: hs) || hasSubstr need hs

/-- Python `x in s` for strings. -/
def pyContains (hay need : String) : Bool := hasSubstr need.toList hay.toList

/-- Python `c in s` for a single character. -/
def containsCharS (s : String) (c : Char) : Bool := s.toList.contains c

/-- src/app.py / src/app2.py `get_unit_type_for_color`: `NaN` or empty gives
`DEFAULT`, otherwise the first case-insensitive substring match among
FSDI, MDI1/MDI-1, MDI2/MDI-2, ORIENTATION. -/
def get_unit_type_for_color : Option String → String
  | none => "DEFAULT"
  | some s =>
    if s = "" then "DEFAULT"
    else
      let u := pyUpper s
      if pyContains u "FSDI" then "FSDI"
      else if pyContains u "MDI1" || pyContains u "MDI-1" then "MDI1"
      else if pyContains u "MDI2" || pyContains u "MDI-2" then "MDI2"
      else if pyContains u "ORIENTATION" then "ORIENTATION"
      else "DEFAULT"

/-- An insertion-ordered string-keyed mapping (Python `dict`): Python's
`d[k] = v` keeps the position of an existing key and appends a new one. -/
def alSet {α : Type} : List (String × α) → String → α → List (String × α)
  | [], k, v => [(k, v)]
  | kv :: rest, k, v => if kv.1 == k then (k, v) :: rest else kv :: alSet rest k v

/-- Python `d[k]` / `k in d` lookup. -/
def alGet {α : Type} (l : List (String × α)) (k : String) : Option α :=
  (l.find? (fun kv => kv.1 == k)).map Prod.snd

/-- The teacher-assignment mapping `cohort → (unit_key → teacher)`. -/
abbrev Assignments := List (String × List (String × String))

/-- Python `assignments[cohort][unit_key] = teacher` when `cohort` is present
(it always is at the call site, having been created by its header line). -/
def alSetInner (l : Assignments) (c k v : String) : Assignments :=
  l.map (fun cv => if cv.1 == c then (cv.1, alSet cv.2 k v) else cv)

/-- Test `re.match(r"^\d{3}\s", line)`: three digits followed by whitespace at
the start. -/
def startsD3ws : List Char → Bool
  | a :: b :: c :: d :: _ => a.isDigit && b.isDigit && c.isDigit && pyIsSpace d
  | _ => false

/-- src/app.py cohort-header test (the parenthesised condition at line 153):
upper-cased line starts with `"COHORT "` or contains `"CH "` or `"CH."`,
has no tab, and does not start with a 3-digit-plus-whitespace token. -/
def isCohortHeader (line : String) : Bool :=
  (startsWithL "COHORT ".toList (pyUpper line).toList
      || pyContains (pyUpper line) "CH " || pyContains (pyUpper line) "CH.")
    && !containsCharS line '\t' && !startsD3ws line.toList

/-- Model of `re.split(r'\s+|\t', line, 1)`: split at the first (maximal) whitespace
run; `none` when the line has no whitespace. -/
def splitFirstWsAux : List Char → List Char → Option (List Char × List Char)
  | _, [] => none
  | acc, c :: cs =>
    if pyIsSpace c then some (acc.reverse, cs.dropWhile pyIsSpace)
    else splitFirstWsAux (c :: acc) cs

/-- Python set-insert, modelled as an ordered duplicate-free list. -/
def addTeacher (ts : List String) (t : String) : List String :=
  if ts.contains t then ts else ts ++ [t]

/-- Per `re.match(r'(\d+)', unit)`: the leading digit run becomes the stored
key when the unit token starts with a digit, else the raw token. -/
def unitKeyOf (unit : String) : String :=
  match unit.toList.takeWhile Char.isDigit with
  | [] => unit
  | ds => String.mk ds

/-- State of src/app.py `parse_teacher_assignment_data`'s loop. -/
structure TAState where
  assignments : Assignments
  current : Option String
  teachers : List String

/-- One iteration of the `parse_teacher_assignment_data` loop over a raw
line: strip; skip blanks; a cohort header opens a fresh (empty) mapping for
that cohort; otherwise, with a current cohort, a line containing a tab or at
least two whitespace-separated tokens is split at its first whitespace run
into `unit` and `teacher` and stored under the leading-digit key. -/
def taStep (st : TAState) (rawLine : String) : TAState :=
  let line := pyStrip rawLine
  if line = "" then st
  else if isCohortHeader line then
    { assignments := alSet st.assignments line [], current := some line,
      teachers := st.teachers }
  else
    match st.current with
    | none => st
    | some cc =>
      if containsCharS line '\t' || decide (2 ≤ (pySplitWs line).length) then
        match splitFirstWsAux [] line.toList with
        | none => st
        | some (u, t) =>
          let unit := pyStrip (String.mk u)
          let teacher := pyStrip (String.mk t)
          if unit ≠ "" ∧ teacher ≠ "" then
            { assignments := alSetInner st.assignments cc (unitKeyOf unit) teacher,
              current := st.current,
              teachers := addTeacher st.teachers teacher }
          else st
      else st

/-- src/app.py `parse_teacher_assignment_data` (src/app2.py's copy differs
only in requiring exactly two space-separated tokens and lacking the `"CH."`
header test; the merge semantics under scrutiny are shared).  Line
iteration models `str.splitlines()`; a possible final empty segment of the
newline split is blank and hence skipped, as `splitlines` would drop it. -/
def parse_teacher_assignment_data (raw : String) : Assignments × List String :=
  let final := (pySplit raw '\n').foldl taStep ⟨[], none, []⟩
  (final.assignments, final.teachers)

/-- Python `dict.update`: every top-level key of `delta` overwrites the
corresponding key of `store` wholesale. -/
def dictUpdate (store delta : Assignments) : Assignments :=
  delta.foldl (fun st cv => alSet st cv.1 cv.2) store

/-- The process-wide teacher-assignment configuration. -/
structure TeacherConfig where
  assignments : Assignments
  knownTeachers : List String
deriving DecidableEq, Repr

/-- The Update-Teacher-Assignments handler of src/app.py (lines 462-464) and
src/app2.py (lines 252-254): parse the pasted block, `dict.update` the
assignments, set-union the teacher names. -/
def update_teacher_assignments (cfg : TeacherConfig) (raw : String) : TeacherConfig :=
  let pr := parse_teacher_assignment_data raw
  { assignments := dictUpdate cfg.assignments pr.1,
    knownTeachers := pr.2.foldl addTeacher cfg.knownTeachers }

/-- Lookup of a single `(cohort, unit_key)` pair. -/
def pairGet (a : Assignments) (c k : String) : Option String :=
  match alGet a c with
  | none => none
  | some m => alGet m k

example : parse_teacher_assignment_data "Cohort 52\n101\tSam\n102\tJordan"
    = ([("Cohort 52", [("101", "Sam"), ("102", "Jordan")])], ["Sam", "Jordan"]) := by
  decide
example : parse_teacher_assignment_data "Cohort 52\nFSDI 101 Sam"
    = ([("Cohort 52", [("FSDI", "101 Sam")])], ["101 Sam"]) := by decide
example : (parse_teacher_assignment_data "101\tSam").1 = [] := by decide

lemma alGet_alSet {α : Type} (l : List (String × α)) (k : String) (v : α) (c : String) :
    alGet (alSet l k v) c = if c = k then some v else alGet l c := by
  induction l with
  | nil =>
    by_cases h : c = k
    · subst h; simp [alSet, alGet, List.find?]
    · simp only [alSet, alGet, List.find?]
      rw [show (k == c) = false by simp [Ne.symm h]]
      simp [h]
  | cons kv rest ih =>
    by_cases hk : kv.1 = k
    · rw [show alSet (kv :: rest) k v = (k, v) :: rest by simp [alSet, hk]]
      by_cases h : c = k
      · subst h; simp [alGet, List.find?]
      · simp only [alGet, List.find?]
        rw [show ((k, v).1 == c) = false by simp [Ne.symm h]]
        rw [show (kv.1 == c) = false by simp [hk, Ne.symm h]]
        simp [h]
    · rw [show alSet (kv :: rest) k v = kv :: alSet rest k v by simp [alSet, hk]]
      by_cases h : c = kv.1
      · subst h
        simp only [alGet, List.find?, beq_self_eq_true]
        have hck : ¬ (kv.1 = k) := hk
        simp [if_neg hck]
      · simp only [alGet, List.find?]
        rw [show (kv.1 == c) = false by simp [Ne.symm h]]
        have h2 := ih
        simp only [alGet] at h2
        simp [h2]

lemma alGet_eq_none_of_not_mem {α : Type} (l : List (String × α)) (c : String)
    (h : c ∉ l.map Prod.fst) : alGet l c = none := by
  induction l with
  | nil => rfl
  | cons kv rest ih =>
    simp only [List.map_cons, List.mem_cons] at h
    push_neg at h
    simp only [alGet, List.find?]
    rw [show (kv.1 == c) = false by simp [Ne.symm h.1]]
    exact ih h.2

lemma alGet_dictUpdate (delta : Assignments) :
    ∀ (store : Assignments) (c : String), (delta.map Prod.fst).Nodup →
      alGet (dictUpdate store delta) c
        = match alGet delta c with
          | some m => some m
          | none => alGet store c := by
  induction delta with
  | nil => intro store c _; rfl
  | cons kv rest ih =>
    intro store c hnd
    simp only [List.map_cons, List.nodup_cons] at hnd
    have hstep : dictUpdate store (kv :: rest)
        = dictUpdate (alSet store kv.1 kv.2) rest := rfl
    rw [hstep, ih (alSet store kv.1 kv.2) c hnd.2]
    by_cases h : c = kv.1
    · subst h
      have hrest : alGet rest kv.1 = none := alGet_eq_none_of_not_mem rest kv.1 hnd.1
      have hhd : alGet (kv :: rest) kv.1 = some kv.2 := by
        simp [alGet, List.find?]
      rw [hrest, hhd, alGet_alSet]
      simp
    · have hhd : alGet (kv :: rest) c = alGet rest c := by
        simp only [alGet, List.find?]
        rw [show (kv.1 == c) = false by simp [Ne.symm h]]
      rw [hhd, alGet_alSet, if_neg h]

lemma alSet_keys {α : Type} (l : List (String × α)) (k : String) (v : α) :
    (alSet l k v).map Prod.fst
      = if k ∈ l.map Prod.fst then l.map Prod.fst else l.map Prod.fst ++ [k] := by
  induction l with
  | nil => simp [alSet]
  | cons kv rest ih =>
    by_cases hk : kv.1 = k
    · rw [show alSet (kv :: rest) k v = (k, v) :: rest by simp [alSet, hk]]
      simp [hk]
    · rw [show alSet (kv :: rest) k v = kv :: alSet rest k v by simp [alSet, hk]]
      simp only [List.map_cons, ih, List.mem_cons]
      by_cases hm : k ∈ rest.map Prod.fst
      · simp [hm, Ne.symm hk]
      · simp [hm, Ne.symm hk]

lemma alSet_keys_nodup {α : Type} (l : List (String × α)) (k : String) (v : α)
    (h : (l.map Prod.fst).Nodup) : ((alSet l k v).map Prod.fst).Nodup := by
  rw [alSet_keys]
  by_cases hm : k ∈ l.map Prod.fst
  · simp [hm, h]
  · simp only [hm, if_false]
    rw [List.nodup_append]
    exact ⟨h, List.nodup_singleton k, by simp [hm]⟩

lemma alSetInner_keys (l : Assignments) (c k v : String) :
    (alSetInner l c k v).map Prod.fst = l.map Prod.fst := by
  unfold alSetInner
  induction l with
  | nil => rfl
  | cons kv rest ih =>
    by_cases h : kv.1 = c
    · have hf : (if (kv.1 == c) = true then (kv.1, alSet kv.2 k v) else kv)
          = (kv.1, alSet kv.2 k v) := if_pos (by simp [h])
      rw [List.map_cons, List.map_cons, hf, List.map_cons, ih]
    · have hf : (if (kv.1 == c) = true then (kv.1, alSet kv.2 k v) else kv) = kv :=
        if_neg (by simp [h])
      rw [List.map_cons, List.map_cons, hf, List.map_cons, ih]

lemma taStep_nodup (st : TAState) (line : String)
    (h : (st.assignments.map Prod.fst).Nodup) :
    (((taStep st line).assignments).map Prod.fst).Nodup := by
  unfold taStep
  by_cases h1 : pyStrip line = ""
  · simp [h1, h]
  · rw [if_neg h1]
    by_cases h2 : isCohortHeader (pyStrip line) = true
    · rw [if_pos h2]
      exact alSet_keys_nodup _ _ _ h
    · rw [if_neg h2]
      cases st.current with
      | none => exact h
      | some cc =>
        simp only
        by_cases h3 : (containsCharS (pyStrip line) '\t'
            || decide (2 ≤ (pySplitWs (pyStrip line)).length)) = true
        · rw [if_pos h3]
          cases hsp : splitFirstWsAux [] (pyStrip line).toList with
          | none => exact h
          | some ut =>
            simp only
            by_cases h4 : pyStrip (String.mk ut.1) ≠ "" ∧ pyStrip (String.mk ut.2) ≠ ""
            · rw [if_pos h4]
              simp only [alSetInner_keys]
              exact h
            · rw [if_neg h4]; exact h
        · rw [if_neg h3]; exact h

lemma parse_teacher_nodup (raw : String) :
    (((parse_teacher_assignment_data raw).1).map Prod.fst).Nodup := by
  unfold parse_teacher_assignment_data
  have gen : ∀ (lines : List String) (st : TAState),
      (st.assignments.map Prod.fst).Nodup →
      (((lines.foldl taStep st).assignments).map Prod.fst).Nodup := by
    intro lines
    induction lines with
    | nil => intro st h; exact h
    | cons l rest ih =>
      intro st h
      exact ih (taStep st l) (taStep_nodup st l h)
  exact gen (pySplit raw '\n') ⟨[], none, []⟩ (by simp)

lemma mem_addTeacher (ts : List String) (t x : String) :
    x ∈ addTeacher ts t ↔ x ∈ ts ∨ x = t := by
  unfold addTeacher
  by_cases h : ts.contains t = true
  · rw [if_pos h]
    constructor
    · exact Or.inl
    · rintro (hx | rfl)
      · exact hx
      · simpa using h
  · rw [if_neg h]
    simp

lemma mem_foldl_addTeacher (l : List String) :
    ∀ (ts : List String) (x : String),
      x ∈ l.foldl addTeacher ts ↔ x ∈ ts ∨ x ∈ l := by
  induction l with
  | nil => intro ts x; simp
  | cons t rest ih =>
    intro ts x
    simp only [List.foldl_cons, ih, mem_addTeacher, List.mem_cons]
    tauto

/-- C1 (counterexample): merging a parsed delta does NOT only overwrite the
(cohort, unit_key) pairs present in the delta.  With the store mapping
(Cohort 52, 101) to Sam, merging the block consisting of a "Cohort 52"
header and a single "102 Jordan" line removes the (Cohort 52, 101) pair,
because `dict.update` replaces the whole per-cohort mapping. -/
theorem C1_counterexample :
    pairGet ([("Cohort 52", [("101", "Sam")])] : Assignments) "Cohort 52" "101"
        = some "Sam"
    ∧ alGet (parse_teacher_assignment_data "Cohort 52\n102\tJordan").1 "Cohort 52"
        = some [("102", "Jordan")]
    ∧ pairGet (update_teacher_assignments
        ⟨[("Cohort 52", [("101", "Sam")])], ["Sam"]⟩
        "Cohort 52\n102\tJordan").assignments "Cohort 52" "101" = none := by
  decide

/-- C1 (amended): merging a parse_block delta into the store replaces, for
each cohort named in the delta, the store's entire unit-to-teacher mapping
for that cohort by the delta's mapping (so pairs under such a cohort that
the delta does not re-list are removed); mappings of cohorts absent from
the delta are unchanged; every teacher name in the delta is added to the
known-teacher set and no known teacher is removed. -/
theorem C1_merge_amended (cfg : TeacherConfig) (raw : String) :
    (∀ c, alGet (parse_teacher_assignment_data raw).1 c = none →
        alGet (update_teacher_assignments cfg raw).assignments c
          = alGet cfg.assignments c) ∧
    (∀ c m, alGet (parse_teacher_assignment_data raw).1 c = some m →
        alGet (update_teacher_assignments cfg raw).assignments c = some m) ∧
    (∀ t, t ∈ (parse_teacher_assignment_data raw).2 →
        t ∈ (update_teacher_assignments cfg raw).knownTeachers) ∧
    (∀ t, t ∈ cfg.knownTeachers →
        t ∈ (update_teacher_assignments cfg raw).knownTeachers) := by
  refine ⟨?_, ?_, ?_, ?_⟩
  · intro c hc
    show alGet (dictUpdate cfg.assignments (parse_teacher_assignment_data raw).1) c
      = alGet cfg.assignments c
    rw [alGet_dictUpdate (parse_teacher_assignment_data raw).1 cfg.assignments c
      (parse_teacher_nodup raw), hc]
  · intro c m hc
    show alGet (dictUpdate cfg.assignments (parse_teacher_assignment_data raw).1) c
      = some m
    rw [alGet_dictUpdate (parse_teacher_assignment_data raw).1 cfg.assignments c
      (parse_teacher_nodup raw), hc]
  · intro t ht
    show t ∈ ((parse_teacher_assignment_data raw).2).foldl addTeacher cfg.knownTeachers
    exact (mem_foldl_addTeacher _ _ _).mpr (Or.inr ht)
  · intro t ht
    show t ∈ ((parse_teacher_assignment_data raw).2).foldl addTeacher cfg.knownTeachers
    exact (mem_foldl_addTeacher _ _ _).mpr (Or.inl ht)

/-- C1 witness: a concrete merge keeps the mapping of a cohort absent from
the delta unchanged and adds the delta's teacher to the known set. -/
theorem C1_merge_amended_witness :
    alGet (update_teacher_assignments ⟨[("X", [("1", "A")])], []⟩
        "Cohort 52\n102\tJordan").assignments "X"
      = alGet ([("X", [("1", "A")])] : Assignments) "X"
    ∧ "Jordan" ∈ (update_teacher_assignments ⟨[("X", [("1", "A")])], []⟩
        "Cohort 52\n102\tJordan").knownTeachers := by
  refine ⟨?_, ?_⟩
  · exact (C1_merge_amended ⟨[("X", [("1", "A")])], []⟩
      "Cohort 52\n102\tJordan").1 "X" (by decide)
  · exact (C1_merge_amended ⟨[("X", [("1", "A")])], []⟩
      "Cohort 52\n102\tJordan").2.2.1 "Jordan" (by decide)

/-- A loaded master-schedule row (src/app.py `load_master_schedule` output):
the original date text, its parsed date, the cohort and the unit cell. -/
structure MasterRow where
  dateStr : String
  parsedDate : PyDate
  cohortName : String
  unitActivity : String
deriving DecidableEq, Repr

/-- A derived calendar event (src/app.py `generate_calendar_events_from_master`
output: title, start, color, and the extendedProps fields). -/
structure CalendarEvent where
  title : String
  start : PyDate
  color : String
  teacher : String
  cohort : String
  unit : String
deriving DecidableEq, Repr

/-- src/app.py / src/app2.py `get_default_colors`. -/
def get_default_colors : List (String × String) :=
  [("FSDI", "#1f77b4"), ("MDI1", "#ff7f0e"), ("MDI2", "#2ca02c"),
   ("ORIENTATION", "#d62728"), ("DEFAULT", "#7f7f7f")]

/-- Teacher resolution (src/app.py lines 192-196): look up the normalized
unit key under the cohort; a `None` key, unknown cohort or unknown key all
give the empty teacher. -/
def resolveTeacher (assignments : Assignments) (cohort : String)
    (key : Option String) : String :=
  match key with
  | none => ""
  | some k =>
    match pairGet assignments cohort k with
    | some t => t
    | none => ""

/-- Unit-filter test (src/app.py lines 186-190): empty filter passes all;
otherwise pass on the Orientation special case or exact membership. -/
def unitFilterPass (selUnits : List String) (disp : String) : Bool :=
  selUnits.isEmpty
    || (pyLower disp == "orientation" && selUnits.contains "Orientation")
    || selUnits.contains disp

/-- Teacher-filter test (src/app.py lines 197-198): empty filter passes all;
otherwise pass on membership, or on "Unassigned" for an empty teacher. -/
def teacherFilterPass (selTeachers : List String) (teacher : String) : Bool :=
  selTeachers.isEmpty || selTeachers.contains teacher
    || (teacher == "" && selTeachers.contains "Unassigned")

/-- Color resolution (src/app.py line 202): `event_colors.get(type,
event_colors["DEFAULT"])`; the color table always carries a DEFAULT entry
(the `""` fallback is unreachable in the application). -/
def eventColor (colors : List (String × String)) (disp : String) : String :=
  match alGet colors (get_unit_type_for_color (some disp)) with
  | some c => c
  | none => (alGet colors "DEFAULT").getD ""

/-- The per-row body of src/app.py `generate_calendar_events_from_master`
(lines 170-207), with the month/cohort pre-filters folded into the row test:
filter by (year, month), by cohort membership, substitute "No Activity" for
a blank unit, apply the unit filter, resolve and filter the teacher, and
build the event. -/
def eventOfRow (assignments : Assignments) (colors : List (String × String))
    (selCohorts selUnits selTeachers : List String) (year month : Nat)
    (r : MasterRow) : Option CalendarEvent :=
  if r.parsedDate.year == year && r.parsedDate.month == month
      && selCohorts.contains r.cohortName then
    let full := pyStrip r.unitActivity
    let disp := if full = "" then "No Activity" else full
    if unitFilterPass selUnits disp then
      let teacher := resolveTeacher assignments r.cohortName
        (get_actual_unit_from_cell (some disp))
      if teacherFilterPass selTeachers teacher then
        some { title := r.cohortName ++ ": " ++ disp
                 ++ (if teacher ≠ "" then " (" ++ teacher ++ ")" else ""),
               start := r.parsedDate, color := eventColor colors disp,
               teacher := teacher, cohort := r.cohortName, unit := disp }
      else none
    else none
  else none

/-- src/app.py `generate_calendar_events_from_master`. -/
def generate_calendar_events_from_master (rows : List MasterRow)
    (assignments : Assignments) (colors : List (String × String))
    (selCohorts selUnits selTeachers : List String) (year month : Nat) :
    List CalendarEvent :=
  rows.filterMap
    (eventOfRow assignments colors selCohorts selUnits selTeachers year month)

/-- What the Calendar View tab shows (src/app.py lines 392-401): either the
distinct "select at least one cohort" notice, or the rendered event list. -/
inductive CalendarTabState where
  | noCohortSelected : CalendarTabState
  | rendered : List CalendarEvent → CalendarTabState
deriving DecidableEq, Repr

/-- src/app.py Calendar View tab logic: the empty-cohort check happens in
the tab, before `generate_calendar_events_from_master` is invoked. -/
def calendar_tab_state (rows : List MasterRow) (assignments : Assignments)
    (colors : List (String × String))
    (selCohorts selUnits selTeachers : List String) (year month : Nat) :
    CalendarTabState :=
  if selCohorts = [] then CalendarTabState.noCohortSelected
  else CalendarTabState.rendered (generate_calendar_events_from_master rows
    assignments colors selCohorts selUnits selTeachers year month)

example : generate_calendar_events_from_master
    [⟨"03/14/25", ⟨2025, 3, 14⟩, "A", "FSDI 101"⟩] [] get_default_colors
    ["A"] [] [] 2025 3
    = [⟨"A: FSDI 101", ⟨2025, 3, 14⟩, "#1f77b4", "", "A", "FSDI 101"⟩] := by
  decide
example : generate_calendar_events_from_master
    [⟨"03/14/25", ⟨2025, 3, 14⟩, "A", "FSDI 101"⟩]
    [("A", [("101", "Sam")])] get_default_colors ["A"] [] [] 2025 3
    = [⟨"A: FSDI 101 (Sam)", ⟨2025, 3, 14⟩, "#1f77b4", "Sam", "A", "FSDI 101"⟩] := by
  decide

/-- C2 (counterexample): calling the event-derivation function itself with an
empty cohort set returns the very same empty-but-successful event list as a
non-matching filter combination does — no distinct state is visible in its
result. -/
theorem C2_counterexample :
    generate_calendar_events_from_master
        [⟨"03/14/25", ⟨2025, 3, 14⟩, "A", "FSDI 101"⟩] [] get_default_colors
        [] [] [] 2025 3
      = generate_calendar_events_from_master
        [⟨"03/14/25", ⟨2025, 3, 14⟩, "A", "FSDI 101"⟩] [] get_default_colors
        ["A"] ["No Such Unit"] [] 2025 3
    ∧ generate_calendar_events_from_master
        [⟨"03/14/25", ⟨2025, 3, 14⟩, "A", "FSDI 101"⟩] [] get_default_colors
        [] [] [] 2025 3 = [] := by
  decide

/-- C2 (amended): the derivation function returns a plain empty list for an
empty cohort set; the caller-visible distinct "no cohorts selected" state is
produced by the Calendar View tab, which checks the cohort selection before
invoking derivation and renders a notice instead, and that state is distinct
from every rendered event list. -/
theorem C2_no_cohort_amended (rows : List MasterRow) (assignments : Assignments)
    (colors : List (String × String)) (selUnits selTeachers : List String)
    (year month : Nat) :
    calendar_tab_state rows assignments colors [] selUnits selTeachers year month
      = CalendarTabState.noCohortSelected
    ∧ (∀ selCohorts, selCohorts ≠ [] →
        calendar_tab_state rows assignments colors selCohorts selUnits
            selTeachers year month
          = CalendarTabState.rendered (generate_calendar_events_from_master rows
              assignments colors selCohorts selUnits selTeachers year month))
    ∧ (∀ evs : List CalendarEvent,
        CalendarTabState.noCohortSelected ≠ CalendarTabState.rendered evs) := by
  refine ⟨rfl, ?_, ?_⟩
  · intro selCohorts hne
    unfold calendar_tab_state
    rw [if_neg hne]
  · intro evs h
    cases h

/-- C2 witness: the tab state for a concrete nonempty cohort selection is the
rendered event list. -/
theorem C2_no_cohort_amended_witness :
    calendar_tab_state [⟨"03/14/25", ⟨2025, 3, 14⟩, "A", "FSDI 101"⟩] []
        get_default_colors ["A"] [] [] 2025 3
      = CalendarTabState.rendered (generate_calendar_events_from_master
          [⟨"03/14/25", ⟨2025, 3, 14⟩, "A", "FSDI 101"⟩] [] get_default_colors
          ["A"] [] [] 2025 3) :=
  (C2_no_cohort_amended [⟨"03/14/25", ⟨2025, 3, 14⟩, "A", "FSDI 101"⟩] []
      get_default_colors [] [] 2025 3).2.1 ["A"] (by decide)

/-- C4 (code defect): in src/app.py's event derivation a `"nan"` unit cell is
NOT treated like an absent/empty cell: it yields an event titled "A: nan",
while the empty cell yields "A: No Activity" (src/app2.py, by contrast,
skips `"nan"` cells just like absent ones, which is what the claim and the
spec's edge-case rule require). -/
theorem C4_nan_cell_eval :
    generate_calendar_events_from_master
        [⟨"03/14/25", ⟨2025, 3, 14⟩, "A", "nan"⟩] [] get_default_colors
        ["A"] [] [] 2025 3
      = [⟨"A: nan", ⟨2025, 3, 14⟩, "#7f7f7f", "", "A", "nan"⟩]
    ∧ generate_calendar_events_from_master
        [⟨"03/14/25", ⟨2025, 3, 14⟩, "A", ""⟩] [] get_default_colors
        ["A"] [] [] 2025 3
      = [⟨"A: No Activity", ⟨2025, 3, 14⟩, "#7f7f7f", "", "A", "No Activity"⟩]
    ∧ generate_calendar_events_from_master
        [⟨"03/14/25", ⟨2025, 3, 14⟩, "A", "nan"⟩] [] get_default_colors
        ["A"] [] [] 2025 3
      ≠ generate_calendar_events_from_master
        [⟨"03/14/25", ⟨2025, 3, 14⟩, "A", ""⟩] [] get_default_colors
        ["A"] [] [] 2025 3 := by
  decide

/-- C10 (counterexample): an entry with a blank unit that passes the period
and cohort filters, with the unit filter empty, can still produce NO output:
a nonempty teacher filter that does not list "Unassigned" drops it. -/
theorem C10_counterexample :
    generate_calendar_events_from_master
        [⟨"03/14/25", ⟨2025, 3, 14⟩, "A", ""⟩] [] get_default_colors
        ["A"] [] ["Sam"] 2025 3 = []
    ∧ (⟨"03/14/25", ⟨2025, 3, 14⟩, "A", ""⟩ : MasterRow).parsedDate.year = 2025
    ∧ (⟨"03/14/25", ⟨2025, 3, 14⟩, "A", ""⟩ : MasterRow).parsedDate.month = 3
    ∧ "A" ∈ ["A"] := by
  decide

/-- C10 (amended): an entry with a blank (after trimming) unit cell that
passes the period and cohort filters, with the unit filter empty, and whose
resolved teacher passes the teacher filter, is not dropped: it yields an
event with unit display "No Activity" and title "cohort: No Activity"
(plus the teacher suffix when one resolves). -/
theorem C10_no_activity_amended (rows : List MasterRow)
    (assignments : Assignments) (colors : List (String × String))
    (selCohorts selTeachers : List String) (year month : Nat) (r : MasterRow)
    (hmem : r ∈ rows) (hy : r.parsedDate.year = year)
    (hm : r.parsedDate.month = month) (hc : r.cohortName ∈ selCohorts)
    (hu : pyStrip r.unitActivity = "")
    (ht : teacherFilterPass selTeachers
        (resolveTeacher assignments r.cohortName
          (get_actual_unit_from_cell (some "No Activity"))) = true) :
    ∃ e ∈ generate_calendar_events_from_master rows assignments colors
        selCohorts [] selTeachers year month,
      e.cohort = r.cohortName ∧ e.start = r.parsedDate
        ∧ e.unit = "No Activity"
        ∧ e.title = r.cohortName ++ ": No Activity"
            ++ (if resolveTeacher assignments r.cohortName
                  (get_actual_unit_from_cell (some "No Activity")) ≠ "" then
                  " (" ++ resolveTeacher assignments r.cohortName
                    (get_actual_unit_from_cell (some "No Activity")) ++ ")"
                else "") := by
  have hrow : eventOfRow assignments colors selCohorts [] selTeachers year month r
      = some { title := r.cohortName ++ ": No Activity"
                 ++ (if resolveTeacher assignments r.cohortName
                       (get_actual_unit_from_cell (some "No Activity")) ≠ "" then
                       " (" ++ resolveTeacher assignments r.cohortName
                         (get_actual_unit_from_cell (some "No Activity")) ++ ")"
                     else ""),
               start := r.parsedDate,
               color := eventColor colors "No Activity",
               teacher := resolveTeacher assignments r.cohortName
                 (get_actual_unit_from_cell (some "No Activity")),
               cohort := r.cohortName, unit := "No Activity" } := by
    unfold eventOfRow
    have hcond : (r.parsedDate.year == year && r.parsedDate.month == month
        && selCohorts.contains r.cohortName) = true := by
      simp only [Bool.and_eq_true, beq_iff_eq]
      exact ⟨⟨hy, hm⟩, by simpa using hc⟩
    rw [if_pos hcond, hu]
    simp [unitFilterPass, ht]
    rw [String.append_assoc r.cohortName ": " "No Activity",
      show (": " : String) ++ "No Activity" = ": No Activity" from rfl]
  exact ⟨_, List.mem_filterMap.mpr ⟨r, hmem, hrow⟩, rfl, rfl, rfl, rfl⟩

/-- C10 witness: a concrete blank-unit entry with no teacher filter yields
the "A: No Activity" event. -/
theorem C10_no_activity_amended_witness :
    ∃ e ∈ generate_calendar_events_from_master
        [⟨"03/14/25", ⟨2025, 3, 14⟩, "A", " "⟩] [] get_default_colors
        ["A"] [] [] 2025 3,
      e.cohort = "A" ∧ e.start = ⟨2025, 3, 14⟩ ∧ e.unit = "No Activity"
        ∧ e.title = "A" ++ ": No Activity"
            ++ (if resolveTeacher [] "A"
                  (get_actual_unit_from_cell (some "No Activity")) ≠ "" then
                  " (" ++ resolveTeacher [] "A"
                    (get_actual_unit_from_cell (some "No Activity")) ++ ")"
                else "") :=
  C10_no_activity_amended [⟨"03/14/25", ⟨2025, 3, 14⟩, "A", " "⟩] []
    get_default_colors ["A"] [] 2025 3 ⟨"03/14/25", ⟨2025, 3, 14⟩, "A", " "⟩
    (by decide) (by decide) (by decide) (by decide) (by decide) (by decide)

/-- C3 (counterexample): src/app.py's date parser does not strip a leading
slot label: it fails on "Saturday (9 am - 12 pm), 03/14/25" instead of
returning 2025-03-14 (src/app2.py's parser does return it). -/
theorem C3_counterexample :
    parse_master_schedule_date_string (some "Saturday (9 am - 12 pm), 03/14/25")
      ≠ some ⟨2025, 3, 14⟩
    ∧ parse_date_from_string (some "Saturday (9 am - 12 pm), 03/14/25")
      = some ⟨2025, 3, 14⟩ := by
  decide

/-- C3 (amended): src/app2.py's `parse_date_from_string` depends only on the
substring after the last comma and accepts two- and four-digit years, so
both example strings give 2025-03-14; src/app.py's
`parse_master_schedule_date_string` parses the whole trimmed string (no
comma handling), accepts both year widths on plain dates, and therefore
fails on the comma-prefixed example. -/
theorem C3_date_parser_amended :
    (∀ s t : String, lastCommaPart s = lastCommaPart t →
        parse_date_from_string (some s) = parse_date_from_string (some t))
    ∧ parse_date_from_string (some "Saturday (9 am - 12 pm), 03/14/25")
        = some ⟨2025, 3, 14⟩
    ∧ parse_date_from_string (some "03/14/2025") = some ⟨2025, 3, 14⟩
    ∧ parse_master_schedule_date_string (some "03/14/2025") = some ⟨2025, 3, 14⟩
    ∧ parse_master_schedule_date_string (some "03/14/25") = some ⟨2025, 3, 14⟩
    ∧ parse_master_schedule_date_string (some "Saturday (9 am - 12 pm), 03/14/25")
        = none := by
  refine ⟨?_, by decide, by decide, by decide, by decide, by decide⟩
  intro s t h
  show (match strptimeMDY2 (pyStrip (lastCommaPart s)) with
        | some d => some d
        | none => strptimeMDY4 (pyStrip (lastCommaPart s)))
    = (match strptimeMDY2 (pyStrip (lastCommaPart t)) with
       | some d => some d
       | none => strptimeMDY4 (pyStrip (lastCommaPart t)))
  rw [h]

/-- C3 witness: two raw strings with the same after-last-comma part parse to
the same result. -/
theorem C3_date_parser_amended_witness :
    parse_date_from_string (some "Sat, 03/14/25")
      = parse_date_from_string (some "Sun, 03/14/25") :=
  C3_date_parser_amended.1 "Sat, 03/14/25" "Sun, 03/14/25" (by decide)

/-- C9: both date parsers return the failure value (not an exception) on
None, the empty string, "not a date", and in general on any input whose
date part matches neither MM/DD/YY nor MM/DD/YYYY. -/
theorem C9_parse_failure :
    parse_date_from_string none = none
    ∧ parse_date_from_string (some "") = none
    ∧ parse_date_from_string (some "not a date") = none
    ∧ parse_master_schedule_date_string none = none
    ∧ parse_master_schedule_date_string (some "") = none
    ∧ parse_master_schedule_date_string (some "not a date") = none
    ∧ (∀ s, strptimeMDY2 (pyStrip (lastCommaPart s)) = none →
        strptimeMDY4 (pyStrip (lastCommaPart s)) = none →
        parse_date_from_string (some s) = none)
    ∧ (∀ s, strptimeMDY4 (pyStrip s) = none → strptimeMDY2 (pyStrip s) = none →
        parse_master_schedule_date_string (some s) = none) := by
  refine ⟨by decide, by decide, by decide, by decide, by decide, by decide, ?_, ?_⟩
  · intro s h2 h4
    show (match strptimeMDY2 (pyStrip (lastCommaPart s)) with
          | some d => some d
          | none => strptimeMDY4 (pyStrip (lastCommaPart s))) = none
    rw [h2, h4]
  · intro s h4 h2
    show (if pyStrip s = "" then none
          else match strptimeMDY4 (pyStrip s) with
               | some d => some d
               | none => strptimeMDY2 (pyStrip s)) = none
    by_cases h : pyStrip s = ""
    · rw [if_pos h]
    · rw [if_neg h, h4, h2]

/-- C9 witness: a concrete non-date string fails in both parsers via the
general clauses. -/
theorem C9_parse_failure_witness :
    parse_date_from_string (some "zzz") = none
    ∧ parse_master_schedule_date_string (some "zzz") = none :=
  ⟨C9_parse_failure.2.2.2.2.2.2.1 "zzz" (by decide) (by decide),
   C9_parse_failure.2.2.2.2.2.2.2 "zzz" (by decide) (by decide)⟩

/-- A persisted schedule row: `OriginalDateString, CohortName, UnitActivity`
as written to master_schedule.csv (CSV field round-tripping is modelled as
the identity on the stored strings). -/
structure RawRow where
  dateStr : String
  cohort : String
  unit : String
deriving DecidableEq, Repr

/-- Truth of `re.match(r'\d{1,2}/\d{1,2}/\d{2,4}', s)` viewed as a Bool: the string
starts with one-or-two digits, `/`, one-or-two digits, `/`, at least two
digits.  (With backtracking, a digit run of length three or more before a
`/` can never match `\d{1,2}` followed by `/`, so the runs before the two
slashes must be exactly 1-2 digits long; the trailing `\d{2,4}` only needs
two digits available, whatever follows.) -/
def dateLikeAtStart (s : String) : Bool :=
  let l := s.toList
  let r1 := l.takeWhile Char.isDigit
  let rest1 := l.dropWhile Char.isDigit
  (decide (1 ≤ r1.length) && decide (r1.length ≤ 2)) &&
  (match rest1 with
   | '/' :: l2 =>
     let r2 := l2.takeWhile Char.isDigit
     let rest2 := l2.dropWhile Char.isDigit
     (decide (1 ≤ r2.length) && decide (r2.length ≤ 2)) &&
     (match rest2 with
      | '/' :: l3 => decide (2 ≤ (l3.takeWhile Char.isDigit).length)
      | _ => false)
   | _ => false)

/-- One line of src/app.py `parse_new_cohort_schedule_input` (lines
118-129): split the stripped line on tabs; with exactly 3 parts take
(field 2, field 3) as (date, unit) provided the stripped date is non-empty;
with exactly 2 parts take (field 1, field 2) when field 1 matches the
date-like pattern (whose match is then necessarily non-empty). -/
def entryOfLine (cohort : String) (line : String) : Option RawRow :=
  match pySplit (pyStrip line) '\t' with
  | [_, p2, p3] =>
    if pyStrip p2 ≠ "" then some ⟨pyStrip p2, cohort, pyStrip p3⟩ else none
  | [p1, p2] =>
    if dateLikeAtStart (pyStrip p1) then some ⟨pyStrip p1, cohort, pyStrip p2⟩
    else none
  | _ => none

/-- src/app.py `parse_new_cohort_schedule_input`: line 1 (stripped) is the
cohort name (empty gives an error and no rows); each later line contributes
via `entryOfLine`. -/
def parse_new_cohort_schedule_input (raw : String) : List RawRow :=
  match pySplit (pyStrip raw) '\n' with
  | [] => []
  | first :: restLines =>
    let cohort := pyStrip first
    if cohort = "" then []
    else restLines.filterMap (entryOfLine cohort)

/-- The per-line rule exactly as claim C5 words it: fields are the
whitespace/tab-separated tokens of the line; 3 fields give (field 2,
field 3); 2 fields give (field 1, field 2) when field 1 matches the
date-like pattern. -/
def entryOfLineClaimed (cohort : String) (line : String) : Option RawRow :=
  match pySplitWs (pyStrip line) with
  | [_, f2, f3] => some ⟨f2, cohort, f3⟩
  | [f1, f2] =>
    if dateLikeAtStart f1 then some ⟨f1, cohort, f2⟩ else none
  | _ => none

/-- The pasted-block parser as claim C5 words it. -/
def parse_new_schedule_claimed (raw : String) : List RawRow :=
  match pySplit (pyStrip raw) '\n' with
  | [] => []
  | first :: restLines =>
    let cohort := pyStrip first
    if cohort = "" then []
    else restLines.filterMap (entryOfLineClaimed cohort)

/-- C5 (counterexample): a line whose three fields are separated by spaces
(not tabs) yields no entry in the code, though the claim says 2-or-3
whitespace/tab-separated fields yield one. -/
theorem C5_counterexample :
    parse_new_cohort_schedule_input "CohortX\nMon 01/02/25 FSDI" = []
    ∧ parse_new_schedule_claimed "CohortX\nMon 01/02/25 FSDI"
        = [⟨"01/02/25", "CohortX", "FSDI"⟩]
    ∧ parse_new_cohort_schedule_input "CohortX\nMon 01/02/25 FSDI"
        ≠ parse_new_schedule_claimed "CohortX\nMon 01/02/25 FSDI" := by
  decide

lemma splitOnCharL_ne_nil (c : Char) (l : List Char) : splitOnCharL c l ≠ [] := by
  induction l with
  | nil => simp [splitOnCharL]
  | cons x xs ih =>
    unfold splitOnCharL
    by_cases h : (x == c) = true
    · simp [h]
    · rw [if_neg h]
      cases hs : splitOnCharL c xs with
      | nil => exact absurd hs ih
      | cons hh tt => simp

lemma pySplit_ne_nil (s : String) (c : Char) : pySplit s c ≠ [] := by
  unfold pySplit
  intro h
  exact splitOnCharL_ne_nil c s.toList (List.map_eq_nil_iff.mp h)

/-- The per-line rule of the amended claim C5: fields are tab-separated
only; 3 fields give (field 2, field 3) provided field 2 is non-blank after
trimming; 2 fields give (field 1, field 2) exactly when field 1 starts with
a match of the date-like pattern. -/
def entryOfLineTabSpec (cohort : String) (line : String) : Option RawRow :=
  if (pySplit (pyStrip line) '\t').length == 3
      && (pyStrip ((pySplit (pyStrip line) '\t').getD 1 "") != "") then
    some ⟨pyStrip ((pySplit (pyStrip line) '\t').getD 1 ""), cohort,
          pyStrip ((pySplit (pyStrip line) '\t').getD 2 "")⟩
  else if (pySplit (pyStrip line) '\t').length == 2
      && dateLikeAtStart (pyStrip ((pySplit (pyStrip line) '\t').getD 0 "")) then
    some ⟨pyStrip ((pySplit (pyStrip line) '\t').getD 0 ""), cohort,
          pyStrip ((pySplit (pyStrip line) '\t').getD 1 "")⟩
  else none

/-- The pasted-block parser as the amended claim C5 words it. -/
def parse_new_schedule_amended (raw : String) : List RawRow :=
  if pyStrip ((pySplit (pyStrip raw) '\n').headD "") = "" then []
  else ((pySplit (pyStrip raw) '\n').tail).filterMap
    (entryOfLineTabSpec (pyStrip ((pySplit (pyStrip raw) '\n').headD "")))

lemma entryOfLine_eq_tabSpec (cohort line : String) :
    entryOfLine cohort line = entryOfLineTabSpec cohort line := by
  unfold entryOfLine entryOfLineTabSpec
  cases h : pySplit (pyStrip line) '\t' with
  | nil => simp
  | cons a rest1 =>
    cases rest1 with
    | nil => simp
    | cons b rest2 =>
      cases rest2 with
      | nil =>
        by_cases hd : dateLikeAtStart (pyStrip a) = true
        · simp [hd]
        · simp [hd]
      | cons c3 rest3 =>
        cases rest3 with
        | nil =>
          by_cases hne : pyStrip b = ""
          · simp [hne]
          · simp [hne]
        | cons d rest4 => simp

/-- C5 (amended): the pasted new-schedule parser takes line 1 as the cohort
name and splits each later line on tabs only: with exactly 3 tab-separated
fields, fields 2 and 3 (trimmed) become (date, unit) provided field 2 is
non-blank; with exactly 2 fields they become (date, unit) exactly when
field 1 begins with a match of the date-like pattern; all other lines —
including ones whose fields are space-separated — yield no entry. -/
theorem C5_new_schedule_amended (raw : String) :
    parse_new_cohort_schedule_input raw = parse_new_schedule_amended raw := by
  unfold parse_new_cohort_schedule_input parse_new_schedule_amended
  cases h : pySplit (pyStrip raw) '\n' with
  | nil => exact absurd h (pySplit_ne_nil _ _)
  | cons first rest =>
    simp only [List.headD_cons, List.tail_cons]
    by_cases hc : pyStrip first = ""
    · simp [hc]
    · simp only [if_neg hc]
      exact congrArg (fun f => List.filterMap f rest)
        (funext (fun line => entryOfLine_eq_tabSpec (pyStrip first) line))

example : parse_new_cohort_schedule_input
    "Cohort 52\nMon\t03/14/25\tFSDI 101\n03/15/25\tFSDI 102\njunk"
    = [⟨"03/14/25", "Cohort 52", "FSDI 101"⟩, ⟨"03/15/25", "Cohort 52", "FSDI 102"⟩] := by
  decide

/-- The persisted master-schedule file: absent, unreadable/malformed (missing
required columns or an unreadable CSV — both make `append` overwrite and
`load` return the empty frame), or well-formed rows. -/
inductive StoreFile where
  | missing : StoreFile
  | malformed : StoreFile
  | wellformed : List RawRow → StoreFile
deriving DecidableEq, Repr

/-- Survivability of a parsed date under src/app.py line 62's
`pd.to_datetime(..., errors='coerce')`: the `datetime.date` is converted to
a midnight nanosecond `Timestamp`, which exists exactly for the dates
1677-09-22 through 2262-04-11 (midnight of 1677-09-21 precedes
`Timestamp.min`, which is 1677-09-21 00:12:43.145224193); outside this
range the value is coerced to `NaT` and the row is removed by the `dropna`
on line 63. -/
def inPandasRange (d : PyDate) : Bool :=
  decide (1677 < d.year ∨ (d.year = 1677 ∧ (9 < d.month
    ∨ (d.month = 9 ∧ 22 ≤ d.day)))) &&
  decide (d.year < 2262 ∨ (d.year = 2262 ∧ (d.month < 4
    ∨ (d.month = 4 ∧ d.day ≤ 11))))

/-- src/app.py `load_master_schedule`: re-parse every stored
`OriginalDateString` with the date parser, convert the result with
`pd.to_datetime(..., errors='coerce')`, and silently drop (`dropna`) rows
whose date fails to parse or falls outside the Timestamp-representable
range. -/
def load_master_schedule : StoreFile → List MasterRow
  | StoreFile.missing => []
  | StoreFile.malformed => []
  | StoreFile.wellformed rows =>
    rows.filterMap (fun r =>
      match parse_master_schedule_date_string (some r.dateStr) with
      | none => none
      | some d =>
        if inPandasRange d then some ⟨r.dateStr, d, r.cohort, r.unit⟩
        else none)

/-- src/app.py `append_to_master_schedule`: an empty frame is a no-op; a
missing or malformed store is overwritten with the new rows; otherwise the
new rows are concatenated after the existing ones. -/
def append_to_master_schedule (st : StoreFile) (newRows : List RawRow) : StoreFile :=
  if newRows = [] then st
  else
    match st with
    | StoreFile.missing => StoreFile.wellformed newRows
    | StoreFile.malformed => StoreFile.wellformed newRows
    | StoreFile.wellformed rows => StoreFile.wellformed (rows ++ newRows)

/-- A raw date string that survives `load_master_schedule`'s parsing
pipeline: it parses, and the parsed date is Timestamp-representable. -/
def loadOk (s : String) : Bool :=
  match parse_master_schedule_date_string (some s) with
  | none => false
  | some d => inPandasRange d

/-- C7 (counterexample): an entry whose raw date string re-parses to a
valid calendar date can still vanish on reload: "01/01/9999" parses, but
`pd.to_datetime` coerces the year-9999 date (outside the nanosecond
Timestamp range) to `NaT` and the row is dropped, so append-then-reload is
not a superset containing the appended entry. -/
theorem C7_counterexample :
    parse_master_schedule_date_string (some "01/01/9999") = some ⟨9999, 1, 1⟩
    ∧ load_master_schedule (append_to_master_schedule
        (StoreFile.wellformed []) [⟨"01/01/9999", "A", "U"⟩]) = [] := by
  decide

/-- C7 (amended): for entries whose raw date string parses to a calendar
date inside pandas' Timestamp range (1677-09-22 through 2262-04-11 — dates
outside it are coerced to `NaT` and silently dropped on load), appending
then reloading yields a superset of the previously loadable entries plus
every appended entry, each carrying exactly the calendar date its raw date
string parsed to when written (the parser is a pure function, so the
reload re-parses each stored string to the same date). -/
theorem C7_append_reload_roundtrip (st : StoreFile) (newRows : List RawRow)
    (hvalid : ∀ r ∈ newRows, loadOk r.dateStr = true) :
    (∀ x ∈ load_master_schedule st,
        x ∈ load_master_schedule (append_to_master_schedule st newRows))
    ∧ (∀ r ∈ newRows, ∀ d,
        parse_master_schedule_date_string (some r.dateStr) = some d →
        inPandasRange d = true →
        (⟨r.dateStr, d, r.cohort, r.unit⟩ : MasterRow)
          ∈ load_master_schedule (append_to_master_schedule st newRows)) := by
  by_cases hempty : newRows = []
  · subst hempty
    refine ⟨?_, ?_⟩
    · intro x hx
      simpa [append_to_master_schedule] using hx
    · intro r hr
      exact absurd hr (List.not_mem_nil r)
  · have happ : ∀ rows, append_to_master_schedule (StoreFile.wellformed rows) newRows
        = StoreFile.wellformed (rows ++ newRows) := by
      intro rows
      simp [append_to_master_schedule, hempty]
    have hnewmem : ∀ r ∈ newRows, ∀ d,
        parse_master_schedule_date_string (some r.dateStr) = some d →
        inPandasRange d = true →
        (⟨r.dateStr, d, r.cohort, r.unit⟩ : MasterRow)
          ∈ load_master_schedule (StoreFile.wellformed newRows) := by
      intro r hr d hd hrange
      unfold load_master_schedule
      refine List.mem_filterMap.mpr ⟨r, hr, ?_⟩
      show (match parse_master_schedule_date_string (some r.dateStr) with
            | none => none
            | some d =>
              if inPandasRange d then
                some (⟨r.dateStr, d, r.cohort, r.unit⟩ : MasterRow)
              else none)
          = some ⟨r.dateStr, d, r.cohort, r.unit⟩
      rw [hd]
      simp [hrange]
    cases st with
    | missing =>
      refine ⟨?_, ?_⟩
      · intro x hx; exact absurd hx (List.not_mem_nil x)
      · intro r hr d hd hrange
        have : append_to_master_schedule StoreFile.missing newRows
            = StoreFile.wellformed newRows := by
          simp [append_to_master_schedule, hempty]
        rw [this]
        exact hnewmem r hr d hd hrange
    | malformed =>
      refine ⟨?_, ?_⟩
      · intro x hx; exact absurd hx (List.not_mem_nil x)
      · intro r hr d hd hrange
        have : append_to_master_schedule StoreFile.malformed newRows
            = StoreFile.wellformed newRows := by
          simp [append_to_master_schedule, hempty]
        rw [this]
        exact hnewmem r hr d hd hrange
    | wellformed rows =>
      rw [happ rows]
      have hsplit : load_master_schedule (StoreFile.wellformed (rows ++ newRows))
          = load_master_schedule (StoreFile.wellformed rows)
            ++ load_master_schedule (StoreFile.wellformed newRows) := by
        unfold load_master_schedule
        exact List.filterMap_append rows newRows _
      rw [hsplit]
      refine ⟨?_, ?_⟩
      · intro x hx
        exact List.mem_append_left _ hx
      · intro r hr d hd hrange
        exact List.mem_append_right _ (hnewmem r hr d hd hrange)

/-- C7 witness: a concrete append of one valid (parseable, in-range) row
onto a one-row store preserves the old loaded entry and adds the new one
with its parsed date. -/
theorem C7_append_reload_roundtrip_witness :
    (⟨"01/02/2025", ⟨2025, 1, 2⟩, "B", "V"⟩ : MasterRow)
      ∈ load_master_schedule (append_to_master_schedule
          (StoreFile.wellformed [⟨"01/02/2025", "B", "V"⟩])
          [⟨"03/14/25", "A", "U"⟩])
    ∧ (⟨"03/14/25", ⟨2025, 3, 14⟩, "A", "U"⟩ : MasterRow)
      ∈ load_master_schedule (append_to_master_schedule
          (StoreFile.wellformed [⟨"01/02/2025", "B", "V"⟩])
          [⟨"03/14/25", "A", "U"⟩]) := by
  constructor
  · exact (C7_append_reload_roundtrip
      (StoreFile.wellformed [⟨"01/02/2025", "B", "V"⟩]) [⟨"03/14/25", "A", "U"⟩]
      (by decide)).1 ⟨"01/02/2025", ⟨2025, 1, 2⟩, "B", "V"⟩ (by decide)
  · exact (C7_append_reload_roundtrip
      (StoreFile.wellformed [⟨"01/02/2025", "B", "V"⟩]) [⟨"03/14/25", "A", "U"⟩]
      (by decide)).2 ⟨"03/14/25", "A", "U"⟩ (by decide) ⟨2025, 3, 14⟩
      (by decide) (by decide)

/-- Chronological order on dates (pandas `sort_values` /  `>=`/`<=` row
filtering compare parsed dates chronologically, i.e. lexicographically on
(year, month, day)). -/
def dateLe (a b : PyDate) : Prop :=
  a.year < b.year ∨ (a.year = b.year ∧ (a.month < b.month
    ∨ (a.month = b.month ∧ a.day ≤ b.day)))

instance : DecidableRel dateLe := fun a b => by unfold dateLe; infer_instance

instance : IsTotal PyDate dateLe := ⟨by
  intro a b
  unfold dateLe
  omega⟩

instance : IsTrans PyDate dateLe := ⟨by
  intro a b c
  unfold dateLe
  omega⟩

/-- The per-row body of src/app.py `prepare_data_for_table_view` (lines
219-263): inclusive date-range filter, cohort filter, the same unit and
teacher rules as the calendar, and the `Activity` cell text
(`display ( teacher)`). -/
def tableCellOfRow (assignments : Assignments)
    (selCohorts selUnits selTeachers : List String) (startD endD : PyDate)
    (r : MasterRow) : Option (PyDate × String × String) :=
  if decide (dateLe startD r.parsedDate) && decide (dateLe r.parsedDate endD)
      && selCohorts.contains r.cohortName then
    let full := pyStrip r.unitActivity
    let disp := if full = "" then "No Activity" else full
    if unitFilterPass selUnits disp then
      let teacher := resolveTeacher assignments r.cohortName
        (get_actual_unit_from_cell (some disp))
      if teacherFilterPass selTeachers teacher then
        some (r.parsedDate, r.cohortName,
          disp ++ (if teacher ≠ "" then " (" ++ teacher ++ ")" else ""))
      else none
    else none
  else none

/-- The `(Date, CohortName, Activity)` rows fed into the pivot
(`table_data_rows` of src/app.py). -/
def passingTableCells (rows : List MasterRow) (assignments : Assignments)
    (selCohorts selUnits selTeachers : List String) (startD endD : PyDate) :
    List (PyDate × String × String) :=
  rows.filterMap
    (tableCellOfRow assignments selCohorts selUnits selTeachers startD endD)

/-- The `Activity` strings of the passing cells for one (date, cohort). -/
def displaysFor (cells : List (PyDate × String × String)) (d : PyDate)
    (c : String) : List String :=
  (cells.filter (fun x => decide (x.1 = d) && decide (x.2.1 = c))).map
    (fun x => x.2.2)

/-- Code-point lexicographic order on character lists (Python's string
comparison, as used by `sorted`). -/
def charListLe : List Char → List Char → Bool
  | [], _ => true
  | _ :: _, [] => false
  | a :: as, b :: bs =>
    if a.toNat < b.toNat then true
    else if b.toNat < a.toNat then false
    else charListLe as bs

lemma charListLe_total : ∀ (l1 l2 : List Char),
    charListLe l1 l2 = true ∨ charListLe l2 l1 = true := by
  intro l1
  induction l1 with
  | nil => intro l2; exact Or.inl rfl
  | cons a as ih =>
    intro l2
    cases l2 with
    | nil => exact Or.inr rfl
    | cons b bs =>
      simp only [charListLe]
      by_cases hab : a.toNat < b.toNat
      · left; simp [hab]
      · by_cases hba : b.toNat < a.toNat
        · right; simp [hba]
        · rcases ih bs with h | h
          · left; simp [hab, hba, h]
          · right; simp [hab, hba, h]

lemma charListLe_trans : ∀ (l1 l2 l3 : List Char), charListLe l1 l2 = true →
    charListLe l2 l3 = true → charListLe l1 l3 = true := by
  intro l1
  induction l1 with
  | nil => intro l2 l3 _ _; rfl
  | cons a as ih =>
    intro l2 l3 h12 h23
    cases l2 with
    | nil => simp [charListLe] at h12
    | cons b bs =>
      cases l3 with
      | nil => simp [charListLe] at h23
      | cons c cs =>
        simp only [charListLe] at h12 h23 ⊢
        by_cases hab : a.toNat < b.toNat
        · by_cases hbc : b.toNat < c.toNat
          · have hac : a.toNat < c.toNat := by omega
            simp [hac]
          · by_cases hcb : c.toNat < b.toNat
            · rw [if_neg hbc, if_pos hcb] at h23
              exact absurd h23 (by simp)
            · have hac : a.toNat < c.toNat := by omega
              simp [hac]
        · by_cases hba : b.toNat < a.toNat
          · rw [if_neg hab, if_pos hba] at h12
            exact absurd h12 (by simp)
          · by_cases hbc : b.toNat < c.toNat
            · have hac : a.toNat < c.toNat := by omega
              simp [hac]
            · by_cases hcb : c.toNat < b.toNat
              · rw [if_neg hbc, if_pos hcb] at h23
                exact absurd h23 (by simp)
              · rw [if_neg hab, if_neg hba] at h12
                rw [if_neg hbc, if_neg hcb] at h23
                have hac1 : ¬ a.toNat < c.toNat := by omega
                have hac2 : ¬ c.toNat < a.toNat := by omega
                rw [if_neg hac1, if_neg hac2]
                exact ih bs cs h12 h23

/-- Python string `<=` (code-point lexicographic). -/
def strLe (a b : String) : Prop := charListLe a.toList b.toList = true

instance : DecidableRel strLe := fun a b => by unfold strLe; infer_instance

instance : IsTotal String strLe := ⟨fun a b => charListLe_total a.toList b.toList⟩

instance : IsTrans String strLe :=
  ⟨fun a b c => charListLe_trans a.toList b.toList c.toList⟩

/-- Python `sorted(list(set(x)))`: duplicates removed, then sorted by the
code-point lexicographic string order. -/
def sortedDedupStr (l : List String) : List String :=
  List.insertionSort strLe l.dedup

/-- The pivot aggregation `' / '.join(sorted(list(set(x))))`. -/
def joinCell (l : List String) : String :=
  String.intercalate " / " (sortedDedupStr l)

/-- src/app.py `prepare_data_for_table_view` (lines 210-279): the pivoted
table, one row per distinct passing date (ascending), one column per
distinct passing cohort (pandas sorts columns), each cell the
`" / "`-joined sorted set of the `Activity` strings, `""` where the pair has
no passing entries (`fillna('')`). -/
def prepare_data_for_table_view (rows : List MasterRow)
    (assignments : Assignments) (selCohorts selUnits selTeachers : List String)
    (startD endD : PyDate) : List (PyDate × List (String × String)) :=
  (List.insertionSort dateLe
      ((passingTableCells rows assignments selCohorts selUnits selTeachers
          startD endD).map (fun x => x.1)).dedup).map
    (fun d => (d,
      (List.insertionSort strLe
          ((passingTableCells rows assignments selCohorts selUnits selTeachers
              startD endD).map (fun x => x.2.1)).dedup).map
        (fun c =>
          (c, if displaysFor (passingTableCells rows assignments selCohorts
                  selUnits selTeachers startD endD) d c = [] then ""
              else joinCell (displaysFor (passingTableCells rows assignments
                  selCohorts selUnits selTeachers startD endD) d c)))))

example : prepare_data_for_table_view
    [⟨"03/14/25", ⟨2025, 3, 14⟩, "A", "FSDI 101"⟩,
     ⟨"03/14/25", ⟨2025, 3, 14⟩, "A", "FSDI 102"⟩,
     ⟨"03/14/25", ⟨2025, 3, 14⟩, "A", "FSDI 101"⟩,
     ⟨"03/15/25", ⟨2025, 3, 15⟩, "B", "Orientation"⟩]
    [] ["A", "B"] [] [] ⟨2025, 3, 1⟩ ⟨2025, 3, 31⟩
    = [(⟨2025, 3, 14⟩, [("A", "FSDI 101 / FSDI 102"), ("B", "")]),
       (⟨2025, 3, 15⟩, [("A", ""), ("B", "Orientation")])] := by
  decide

/-- The pivot step alone, from the list of passing `(Date, Cohort,
Activity)` cells. -/
def pivotOf (cells : List (PyDate × String × String)) :
    List (PyDate × List (String × String)) :=
  (List.insertionSort dateLe (cells.map (fun x => x.1)).dedup).map
    (fun d => (d,
      (List.insertionSort strLe (cells.map (fun x => x.2.1)).dedup).map
        (fun c => (c, if displaysFor cells d c = [] then ""
                      else joinCell (displaysFor cells d c)))))

lemma prepare_eq_pivotOf (rows : List MasterRow) (assignments : Assignments)
    (selCohorts selUnits selTeachers : List String) (startD endD : PyDate) :
    prepare_data_for_table_view rows assignments selCohorts selUnits
        selTeachers startD endD
      = pivotOf (passingTableCells rows assignments selCohorts selUnits
          selTeachers startD endD) := rfl

lemma filter_decide_eq_nil {α : Type} [DecidableEq α] (l : List α) (d : α)
    (h : d ∉ l) : l.filter (fun x => decide (x = d)) = [] := by
  induction l with
  | nil => rfl
  | cons a t ih =>
    simp only [List.mem_cons] at h
    push_neg at h
    rw [List.filter_cons]
    rw [show (decide (a = d)) = false by simp [Ne.symm h.1]]
    simp only [Bool.false_eq_true, if_false]
    exact ih h.2

lemma filter_decide_eq_single {α : Type} [DecidableEq α] (l : List α) (d : α)
    (hnd : l.Nodup) (hd : d ∈ l) : l.filter (fun x => decide (x = d)) = [d] := by
  induction l with
  | nil => cases hd
  | cons a t ih =>
    rw [List.nodup_cons] at hnd
    rw [List.filter_cons]
    by_cases h : a = d
    · subst h
      rw [show (decide (a = a)) = true by simp]
      simp only [if_true]
      rw [filter_decide_eq_nil t a hnd.1]
    · rw [show (decide (a = d)) = false by simp [h]]
      simp only [Bool.false_eq_true, if_false]
      rcases List.mem_cons.mp hd with h1 | h1
      · exact absurd h1.symm h
      · exact ih hnd.2 h1

lemma pivotOf_spec (cells : List (PyDate × String × String)) :
    List.Pairwise dateLe ((pivotOf cells).map Prod.fst)
    ∧ ((pivotOf cells).map Prod.fst).Nodup
    ∧ ∀ d c, (∃ x ∈ cells, x.1 = d ∧ x.2.1 = c) →
        ((pivotOf cells).filter (fun row => decide (row.1 = d))).length = 1
        ∧ ∀ rowCells, (d, rowCells) ∈ pivotOf cells →
            (rowCells.filter (fun cc => decide (cc.1 = c))).length = 1
            ∧ ∀ cell, (c, cell) ∈ rowCells →
                cell = String.intercalate " / "
                  (sortedDedupStr (displaysFor cells d c)) := by
  have hdatesNodup : (List.insertionSort dateLe
      ((cells.map (fun x => x.1)).dedup)).Nodup :=
    ((List.perm_insertionSort dateLe _).nodup_iff).mpr (List.nodup_dedup _)
  have hcolsNodup : (List.insertionSort strLe
      ((cells.map (fun x => x.2.1)).dedup)).Nodup :=
    ((List.perm_insertionSort strLe _).nodup_iff).mpr (List.nodup_dedup _)
  have hmap : (pivotOf cells).map Prod.fst
      = List.insertionSort dateLe ((cells.map (fun x => x.1)).dedup) := by
    unfold pivotOf
    rw [List.map_map]
    exact List.map_id _
  refine ⟨?_, ?_, ?_⟩
  · rw [hmap]
    show List.Sorted dateLe _
    exact List.sorted_insertionSort dateLe _
  · rw [hmap]
    exact hdatesNodup
  · intro d c hex
    obtain ⟨x, hxmem, hx1, hx2⟩ := hex
    have hdmem : d ∈ List.insertionSort dateLe ((cells.map (fun x => x.1)).dedup) :=
      ((List.perm_insertionSort dateLe _).mem_iff).mpr
        (List.mem_dedup.mpr (List.mem_map.mpr ⟨x, hxmem, hx1⟩))
    have hcmem : c ∈ List.insertionSort strLe ((cells.map (fun x => x.2.1)).dedup) :=
      ((List.perm_insertionSort strLe _).mem_iff).mpr
        (List.mem_dedup.mpr (List.mem_map.mpr ⟨x, hxmem, hx2⟩))
    refine ⟨?_, ?_⟩
    · unfold pivotOf
      rw [List.filter_map, List.length_map]
      show ((List.insertionSort dateLe ((cells.map (fun x => x.1)).dedup)).filter
        (fun y => decide (y = d))).length = 1
      rw [filter_decide_eq_single _ d hdatesNodup hdmem]
      rfl
    · intro rowCells hrow
      unfold pivotOf at hrow
      obtain ⟨d', hd', heq⟩ := List.mem_map.mp hrow
      have hd'd : d' = d := congrArg Prod.fst heq
      subst hd'd
      have hrc : rowCells
          = (List.insertionSort strLe ((cells.map (fun x => x.2.1)).dedup)).map
            (fun c' => (c', if displaysFor cells d' c' = [] then ""
                            else joinCell (displaysFor cells d' c'))) :=
        (congrArg Prod.snd heq).symm
      rw [hrc]
      refine ⟨?_, ?_⟩
      · rw [List.filter_map, List.length_map]
        show ((List.insertionSort strLe ((cells.map (fun x => x.2.1)).dedup)).filter
          (fun y => decide (y = c))).length = 1
        rw [filter_decide_eq_single _ c hcolsNodup hcmem]
        rfl
      · intro cell hcell
        obtain ⟨c', hc', heq2⟩ := List.mem_map.mp hcell
        have hcc : c' = c := congrArg Prod.fst heq2
        subst hcc
        have hcellval : cell = if displaysFor cells d' c' = [] then ""
            else joinCell (displaysFor cells d' c') :=
          (congrArg Prod.snd heq2).symm
        have hne : displaysFor cells d' c' ≠ [] := by
          unfold displaysFor
          intro hnil
          have hxin : x ∈ cells.filter
              (fun y => decide (y.1 = d') && decide (y.2.1 = c')) := by
            rw [List.mem_filter]
            exact ⟨hxmem, by simp [hx1, hx2]⟩
          rw [List.map_eq_nil_iff.mp hnil] at hxin
          cases hxin
        rw [hcellval, if_neg hne]
        rfl

/-- C6: for every filtered entry set, the table-view pivot has exactly one
row per passing date, one cell per (date, cohort) pair with passing
entries, that cell being the `" / "`-join of the de-duplicated (sorted)
display strings of the same-day/same-cohort passing entries, and the rows
are sorted ascending by date (and are distinct). -/
theorem C6_table_view (rows : List MasterRow) (assignments : Assignments)
    (selCohorts selUnits selTeachers : List String) (startD endD : PyDate) :
    List.Pairwise dateLe
      ((prepare_data_for_table_view rows assignments selCohorts selUnits
          selTeachers startD endD).map Prod.fst)
    ∧ ((prepare_data_for_table_view rows assignments selCohorts selUnits
          selTeachers startD endD).map Prod.fst).Nodup
    ∧ ∀ d c, (∃ x ∈ passingTableCells rows assignments selCohorts selUnits
          selTeachers startD endD, x.1 = d ∧ x.2.1 = c) →
        ((prepare_data_for_table_view rows assignments selCohorts selUnits
            selTeachers startD endD).filter
          (fun row => decide (row.1 = d))).length = 1
        ∧ ∀ rowCells, (d, rowCells) ∈ prepare_data_for_table_view rows
              assignments selCohorts selUnits selTeachers startD endD →
            (rowCells.filter (fun cc => decide (cc.1 = c))).length = 1
            ∧ ∀ cell, (c, cell) ∈ rowCells →
                cell = String.intercalate " / "
                  (sortedDedupStr (displaysFor (passingTableCells rows
                    assignments selCohorts selUnits selTeachers startD endD)
                    d c)) := by
  rw [prepare_eq_pivotOf]
  exact pivotOf_spec _

/-- C6 witness: in a concrete two-entry schedule the pivot has exactly one
row for the shared date, and its cell for the cohort joins the two distinct
display strings. -/
theorem C6_table_view_witness :
    ((prepare_data_for_table_view
        [⟨"03/14/25", ⟨2025, 3, 14⟩, "A", "FSDI 101"⟩,
         ⟨"03/14/25", ⟨2025, 3, 14⟩, "A", "FSDI 102"⟩] [] ["A"] [] []
        ⟨2025, 3, 1⟩ ⟨2025, 3, 31⟩).filter
      (fun row => decide (row.1 = (⟨2025, 3, 14⟩ : PyDate)))).length = 1 :=
  ((C6_table_view
      [⟨"03/14/25", ⟨2025, 3, 14⟩, "A", "FSDI 101"⟩,
       ⟨"03/14/25", ⟨2025, 3, 14⟩, "A", "FSDI 102"⟩] [] ["A"] [] []
      ⟨2025, 3, 1⟩ ⟨2025, 3, 31⟩).2.2 ⟨2025, 3, 14⟩ "A"
    ⟨(⟨2025, 3, 14⟩, "A", "FSDI 101"), by decide, by decide, by decide⟩).1
